import Mathlib

/-!
Verification of the report page renderer in `src/web/src/app/page.tsx`.

The page module declares a fixed list of task descriptors (`baseTasks`),
reads each descriptor's PHP source file once at module initialization to
build the `tasks` list, and renders a static document (`Home`).

Modelling conventions:
* The filesystem is a map `FS : String → Option String` (path to content).
* Side effects are made explicit by an effect-trace monad `M`: every
  computation returns an `Except` result together with the list of
  filesystem/network events it performed, in order.  `fs.readFileSync`
  records one `Effect.fsRead` event and fails when the file is absent;
  this failure is the spec's `MissingOrUnreadableSource` error.
* JSX output is modelled by a `Node` tree of elements (tag, attributes,
  children) and text nodes.  CSS-module classes (`styles.X`) are modelled
  by their key `"X"`; React `key` props appear as a `"key"` attribute.
* `path.join(process.cwd(), "php", task.program)` is modelled by
  `taskPath cwd t = cwd ++ "/php/" ++ t.program`, with the working
  directory `cwd` a parameter.
-/

/-- A task descriptor, i.e. `Omit<Task, "code">` in the source:
the hand-authored metadata for one exercise. -/
structure TaskBase where
  id : String
  title : String
  aim : String
  highlights : List String
  program : String
deriving Repr, DecidableEq

/-- A full task record: a descriptor together with the loaded source
text (`code`). -/
structure TaskRecord where
  id : String
  title : String
  aim : String
  highlights : List String
  program : String
  code : String
deriving Repr, DecidableEq

/-- The fixed descriptor list `baseTasks` from the source. -/
def baseTasks : List TaskBase :=
  [ { id := "task-1"
    , title := "Task 1 · Largest Number Using Nested If"
    , aim := "Determine the largest of three numbers with nested if statements."
    , highlights :=
        [ "Demonstrates conditional control flow without helper utilities."
        , "Prints the evaluated numbers and the detected maximum."
        , "Relies strictly on nested branching for the decision path." ]
    , program := "task1_largest.php" }
  , { id := "task-2"
    , title := "Task 2 · Reverse String with strrev()"
    , aim := "Reverse a string using PHP's strrev() function."
    , highlights :=
        [ "Uses PHP's built-in string helper directly."
        , "Displays both original and reversed strings for validation."
        , "Keeps the input deterministic for the documented screenshot." ]
    , program := "task2_reverse.php" } ]

/-- A filesystem: maps a path to the file's text content, or `none`
when the file is missing or unreadable. -/
def FS : Type := String → Option String

/-- The single error kind of the renderer: a descriptor's source file
cannot be read. -/
inductive Err where
  | missingOrUnreadableSource (path : String)
deriving Repr, DecidableEq

/-- An observable side effect: a filesystem read, a filesystem write,
or a network call.  The renderer is supposed to emit only reads. -/
inductive Effect where
  | fsRead (path : String)
  | fsWrite (path : String) (content : String)
  | netCall (url : String)
deriving Repr, DecidableEq

/-- Effect-trace monad: a result (or error) together with the ordered
list of effects performed.  A thrown error stops the computation, so no
later effects are recorded. -/
structure M (α : Type) where
  result : Except Err α
  trace : List Effect
deriving Repr

def M.pure {α : Type} (a : α) : M α := ⟨.ok a, []⟩

def M.bind {α β : Type} (x : M α) (f : α → M β) : M β :=
  match x.result with
  | .error e => ⟨.error e, x.trace⟩
  | .ok a => ⟨(f a).result, x.trace ++ (f a).trace⟩

/-- `fs.readFileSync(path, "utf8")`: records the read event; returns the
exact stored content, or throws when the file is absent/unreadable. -/
def readFileSync (fs : FS) (p : String) : M String :=
  { result := match fs p with
      | some c => .ok c
      | none => .error (.missingOrUnreadableSource p)
  , trace := [.fsRead p] }

/-- `path.join(process.cwd(), "php", task.program)`. -/
def taskPath (cwd : String) (t : TaskBase) : String :=
  cwd ++ "/php/" ++ t.program

/-- `{ ...task, code }`: the record spread merging a descriptor with its
loaded source text. -/
def TaskBase.withCode (t : TaskBase) (code : String) : TaskRecord :=
  { id := t.id, title := t.title, aim := t.aim
  , highlights := t.highlights, program := t.program, code := code }

/-- The body of the `baseTasks.map(...)` callback: read the file at the
descriptor's path and merge the text into the record. -/
def loadTask (fs : FS) (cwd : String) (t : TaskBase) : M TaskRecord :=
  M.bind (readFileSync fs (taskPath cwd t)) fun code =>
    M.pure (t.withCode code)

/-- `buildTaskRecords` on an arbitrary descriptor list: the sequential,
fail-fast map of `loadTask` over the descriptors. -/
def buildTaskRecordsOn (fs : FS) (cwd : String) : List TaskBase → M (List TaskRecord)
  | [] => M.pure []
  | t :: ts =>
      M.bind (loadTask fs cwd t) fun r =>
        M.bind (buildTaskRecordsOn fs cwd ts) fun rs =>
          M.pure (r :: rs)

/-- The module-level `tasks` construction: `buildTaskRecords` applied to
the fixed descriptor list. -/
def buildTaskRecords (fs : FS) (cwd : String) : M (List TaskRecord) :=
  buildTaskRecordsOn fs cwd baseTasks

/-- Markup tree: an element with tag, attributes and children, or a text
node. -/
inductive Node where
  | elem (tag : String) (attrs : List (String × String)) (children : List Node)
  | text (s : String)
deriving Repr

/-- One task card `<li key={task.id} className={styles.taskCard}>…</li>`. -/
def renderTaskCard (t : TaskRecord) : Node :=
  .elem "li" [("key", t.id), ("className", "taskCard")]
    [ .elem "h3" [] [.text t.title]
    , .elem "p" [("className", "aim")]
        [ .elem "strong" [] [.text "Aim:"], .text " ", .text t.aim ]
    , .elem "ul" [("className", "highlightList")]
        (t.highlights.map fun h => .elem "li" [("key", h)] [.text h])
    , .elem "details" [("className", "codeBlock")]
        [ .elem "summary" [] [.text "Show Program"]
        , .elem "pre" [] [.elem "code" [] [.text t.code]] ] ]

/-- The header paragraph text of the page. -/
def headerParagraph : String :=
  "Two PHP exercises were implemented, validated in the sandbox, and compiled into a structured PDF. Download the report to review the aims, constraints, procedures, program listings, captured outputs, and conclusions for each task."

/-- The `Home` component: a pure function from the task record list to
the page markup. -/
def Home (tasks : List TaskRecord) : Node :=
  .elem "div" [("className", "page")]
    [ .elem "main" [("className", "container")]
        [ .elem "section" [("className", "header")]
            [ .elem "h1" [] [.text "PHP Programming Task Report"]
            , .elem "p" [] [.text headerParagraph]
            , .elem "div" [("className", "actions")]
                [ .elem "a" [("className", "primary"), ("href", "/task-report.pdf")]
                    [.text "Download Report"]
                , .elem "a"
                    [ ("className", "secondary"), ("href", "/task-report.pdf")
                    , ("target", "_blank"), ("rel", "noreferrer") ]
                    [.text "Open Report in Browser"] ] ]
        , .elem "section" [("className", "tasksSection")]
            [ .elem "h2" [] [.text "Included Tasks"]
            , .elem "ul" [("className", "taskList")] (tasks.map renderTaskCard) ] ] ]

/-- `Home` lifted to the effect monad: its body contains no filesystem
or network operation, so the faithful translation is `pure`. -/
def HomeM (tasks : List TaskRecord) : M Node := M.pure (Home tasks)

/-- Invoking the component at some later time, after the module-level
`tasks` list has been cached: the then-current filesystem is available
but `Home` never consults it. -/
def renderAt (cached : List TaskRecord) (_currentFs : FS) : Node := Home cached

/-- Value of the `className` attribute, if present. -/
def classOf (attrs : List (String × String)) : Option String :=
  List.lookup "className" attrs

mutual

/-- All elements in the tree (the node itself included) whose
`className` attribute equals `c`, in document order. -/
def findClass (c : String) : Node → List Node
  | .text _ => []
  | .elem t attrs cs =>
      (if classOf attrs = some c then [Node.elem t attrs cs] else [])
        ++ findClassList c cs

def findClassList (c : String) : List Node → List Node
  | [] => []
  | n :: ns => findClass c n ++ findClassList c ns

end

mutual

/-- The `href` attributes of all `<a>` elements in the tree, in
document order. -/
def links : Node → List (Option String)
  | .text _ => []
  | .elem t attrs cs =>
      (if t = "a" then [List.lookup "href" attrs] else []) ++ linksList cs

def linksList : List Node → List (Option String)
  | [] => []
  | n :: ns => links n ++ linksList ns

end

mutual

/-- Whether the tree contains a text node whose content is exactly `s`. -/
def containsText (s : String) : Node → Bool
  | .text s' => s' = s
  | .elem _ _ cs => containsTextList s cs

def containsTextList (s : String) : List Node → Bool
  | [] => false
  | n :: ns => containsText s n || containsTextList s ns

end

mutual

/-- Whether the tree contains a `<details>` element that carries no
`open` attribute (i.e. is collapsed by default) and whose content
includes the exact text `s`. -/
def collapsedDetailsWithText (s : String) : Node → Bool
  | .text _ => false
  | .elem t attrs cs =>
      (t = "details" && (List.lookup "open" attrs).isNone
        && containsTextList s cs)
        || collapsedDetailsWithTextList s cs

def collapsedDetailsWithTextList (s : String) : List Node → Bool
  | [] => false
  | n :: ns =>
      collapsedDetailsWithText s n || collapsedDetailsWithTextList s ns

end

/-- The text of the card's `<h3>` heading. -/
def cardTitle : Node → Option String
  | .elem _ _ (.elem "h3" _ [.text s] :: _) => some s
  | _ => none

/-- The children of an element node. -/
def childrenOf : Node → List Node
  | .elem _ _ cs => cs
  | .text _ => []

/-- Interpreting one effect on a filesystem: writes update it, reads
and network calls leave it untouched. -/
def applyEffect (g : FS) : Effect → FS
  | .fsRead _ => g
  | .fsWrite p c => fun q => if q = p then some c else g q
  | .netCall _ => g

/-- Interpreting a whole trace on a filesystem, in order. -/
def applyEffects (es : List Effect) (g : FS) : FS :=
  es.foldl applyEffect g

/-- Characterization of a successful `buildTaskRecordsOn`: descriptors
and produced records correspond pointwise — the record is the
descriptor enriched with a `code` that is exactly the file content at
the descriptor's path. -/
theorem buildOn_ok_forall2 (fs : FS) (cwd : String) :
    ∀ (ds : List TaskBase) (rs : List TaskRecord),
      (buildTaskRecordsOn fs cwd ds).result = .ok rs →
      List.Forall₂
        (fun d r => fs (taskPath cwd d) = some r.code ∧ r = d.withCode r.code)
        ds rs
  | [], rs, h => by
      simp only [buildTaskRecordsOn, M.pure] at h
      cases h
      exact .nil
  | d :: ds, rs, h => by
      rw [buildTaskRecordsOn] at h
      cases hf : fs (taskPath cwd d) with
      | none =>
          simp only [M.bind, loadTask, readFileSync, M.pure, hf] at h
          exact Except.noConfusion h
      | some c =>
          cases hr : (buildTaskRecordsOn fs cwd ds).result with
          | error e =>
              simp only [M.bind, loadTask, readFileSync, M.pure, hf, hr] at h
              exact Except.noConfusion h
          | ok rs' =>
              simp only [M.bind, loadTask, readFileSync, M.pure, hf, hr] at h
              cases h
              exact .cons ⟨hf, rfl⟩ (buildOn_ok_forall2 fs cwd ds rs' hr)

/-- Fail-fast behaviour: if any descriptor's file is missing, the whole
construction results in a `missingOrUnreadableSource` error (so no
record list at all is produced). -/
theorem buildOn_missing (fs : FS) (cwd : String) :
    ∀ ds : List TaskBase, (∃ d ∈ ds, fs (taskPath cwd d) = none) →
      ∃ p, (buildTaskRecordsOn fs cwd ds).result
             = .error (.missingOrUnreadableSource p) ∧ fs p = none
  | [], h => by simp at h
  | d :: ds, h => by
      cases hf : fs (taskPath cwd d) with
      | none =>
          refine ⟨taskPath cwd d, ?_, hf⟩
          rw [buildTaskRecordsOn]
          simp only [M.bind, loadTask, readFileSync, M.pure, hf]
      | some c =>
          have hds : ∃ d' ∈ ds, fs (taskPath cwd d') = none := by
            rcases h with ⟨d', hmem, hnone⟩
            rcases List.mem_cons.mp hmem with rfl | hmem'
            · rw [hf] at hnone; exact Option.noConfusion hnone
            · exact ⟨d', hmem', hnone⟩
          rcases buildOn_missing fs cwd ds hds with ⟨p, hp, hpn⟩
          refine ⟨p, ?_, hpn⟩
          rw [buildTaskRecordsOn]
          simp only [M.bind, loadTask, readFileSync, M.pure, hf, hp]

/-- Every effect emitted by the construction is a filesystem read. -/
theorem buildOn_trace_reads (fs : FS) (cwd : String) :
    ∀ ds : List TaskBase, ∀ e ∈ (buildTaskRecordsOn fs cwd ds).trace,
      ∃ p, e = Effect.fsRead p
  | [], e, he => by simp [buildTaskRecordsOn, M.pure] at he
  | d :: ds, e, he => by
      rw [buildTaskRecordsOn] at he
      cases hf : fs (taskPath cwd d) with
      | none =>
          simp only [M.bind, loadTask, readFileSync, M.pure, hf] at he
          simp at he
          exact ⟨_, he⟩
      | some c =>
          cases hr : (buildTaskRecordsOn fs cwd ds).result with
          | error e' =>
              simp only [M.bind, loadTask, readFileSync, M.pure, hf, hr] at he
              rcases List.mem_append.mp he with h1 | h2
              · simp at h1; exact ⟨_, h1⟩
              · exact buildOn_trace_reads fs cwd ds e h2
          | ok rs' =>
              simp only [M.bind, loadTask, readFileSync, M.pure, hf, hr] at he
              rcases List.mem_append.mp he with h1 | h2
              · simp at h1; exact ⟨_, h1⟩
              · rcases List.mem_append.mp h2 with h3 | h4
                · exact buildOn_trace_reads fs cwd ds e h3
                · simp at h4

/-- Interpreting a trace made only of reads leaves the filesystem
unchanged. -/
theorem applyEffects_of_reads :
    ∀ es : List Effect, (∀ e ∈ es, ∃ p, e = Effect.fsRead p) →
      ∀ g : FS, applyEffects es g = g
  | [], _, g => rfl
  | e :: es, h, g => by
      rcases h e (List.mem_cons_self e es) with ⟨p, rfl⟩
      have := applyEffects_of_reads es
        (fun e' he' => h e' (List.mem_cons_of_mem _ he')) g
      simpa [applyEffects, applyEffect] using this

/-- C1: for every descriptor in the fixed list, the record produced by
`buildTaskRecords` has a `code` field equal to the exact content of the
file at the descriptor's source path — no trimming or transformation. -/
theorem claim1_code_is_exact_file_content (fs : FS) (cwd : String)
    (rs : List TaskRecord) (h : (buildTaskRecords fs cwd).result = .ok rs)
    (i : Nat) (hi : i < rs.length) (hd : i < baseTasks.length) :
    fs (taskPath cwd (baseTasks.get ⟨i, hd⟩)) = some ((rs.get ⟨i, hi⟩).code) :=
  ((buildOn_ok_forall2 fs cwd baseTasks rs h).get hd hi).1

/-- Concrete filesystem holding both PHP files, for witnesses. -/
def fsW : FS := fun p =>
  if p = "/repo/php/task1_largest.php" then some "<?php echo 1;"
  else if p = "/repo/php/task2_reverse.php" then some "<?php echo 2;"
  else none

/-- The empty filesystem: every path missing. -/
def fsEmpty : FS := fun _ => none

/-- The record list produced from `fsW`, for witnesses. -/
def rsW : List TaskRecord :=
  [ { id := "task-1"
    , title := "Task 1 · Largest Number Using Nested If"
    , aim := "Determine the largest of three numbers with nested if statements."
    , highlights :=
        [ "Demonstrates conditional control flow without helper utilities."
        , "Prints the evaluated numbers and the detected maximum."
        , "Relies strictly on nested branching for the decision path." ]
    , program := "task1_largest.php"
    , code := "<?php echo 1;" }
  , { id := "task-2"
    , title := "Task 2 · Reverse String with strrev()"
    , aim := "Reverse a string using PHP's strrev() function."
    , highlights :=
        [ "Uses PHP's built-in string helper directly."
        , "Displays both original and reversed strings for validation."
        , "Keeps the input deterministic for the documented screenshot." ]
    , program := "task2_reverse.php"
    , code := "<?php echo 2;" } ]

theorem fsW_ok : (buildTaskRecords fsW "/repo").result = .ok rsW := by rfl

/-- C1 witness at `fsW`, index 0. -/
theorem claim1_witness :
    (buildTaskRecords fsW "/repo").result = .ok rsW ∧
    fsW (taskPath "/repo" (baseTasks.get ⟨0, by decide⟩))
      = some ((rsW.get ⟨0, by decide⟩).code) :=
  ⟨fsW_ok,
   claim1_code_is_exact_file_content fsW "/repo" rsW fsW_ok 0
     (by decide) (by decide)⟩

/-- C2: a successful `buildTaskRecords` returns as many records as there
are descriptors, in the same order: the i-th record carries the i-th
descriptor's `id` and `program`. -/
theorem claim2_same_length_same_order (fs : FS) (cwd : String)
    (rs : List TaskRecord) (h : (buildTaskRecords fs cwd).result = .ok rs) :
    rs.length = baseTasks.length ∧
    ∀ i (hi : i < rs.length) (hd : i < baseTasks.length),
      (rs.get ⟨i, hi⟩).id = (baseTasks.get ⟨i, hd⟩).id ∧
      (rs.get ⟨i, hi⟩).program = (baseTasks.get ⟨i, hd⟩).program := by
  have hF := buildOn_ok_forall2 fs cwd baseTasks rs h
  refine ⟨hF.length_eq.symm, fun i hi hd => ?_⟩
  have := (hF.get hd hi).2
  rw [this]
  exact ⟨rfl, rfl⟩

/-- C2 witness at `fsW`, index 1. -/
theorem claim2_witness :
    (buildTaskRecords fsW "/repo").result = .ok rsW ∧
    rsW.length = baseTasks.length ∧
    (rsW.get ⟨1, by decide⟩).id = (baseTasks.get ⟨1, by decide⟩).id ∧
    (rsW.get ⟨1, by decide⟩).program = (baseTasks.get ⟨1, by decide⟩).program :=
  ⟨fsW_ok, (claim2_same_length_same_order fsW "/repo" rsW fsW_ok).1,
   (claim2_same_length_same_order fsW "/repo" rsW fsW_ok).2 1
     (by decide) (by decide)⟩

/-- C3: if any descriptor's file is missing, `buildTaskRecords` fails
with the `missingOrUnreadableSource` error and no record list — partial
or otherwise — is produced. -/
theorem claim3_missing_file_aborts (fs : FS) (cwd : String)
    (h : ∃ d ∈ baseTasks, fs (taskPath cwd d) = none) :
    (∃ p, (buildTaskRecords fs cwd).result
            = .error (.missingOrUnreadableSource p)) ∧
    ∀ rs : List TaskRecord, (buildTaskRecords fs cwd).result ≠ .ok rs := by
  rcases buildOn_missing fs cwd baseTasks h with ⟨p, hp, _⟩
  refine ⟨⟨p, hp⟩, fun rs hrs => ?_⟩
  have hrs' : (buildTaskRecordsOn fs cwd baseTasks).result = .ok rs := hrs
  rw [hp] at hrs'
  exact Except.noConfusion hrs'

/-- C3 witness at the empty filesystem. -/
theorem claim3_witness :
    (∃ d ∈ baseTasks, fsEmpty (taskPath "/repo" d) = none) ∧
    (∃ p, (buildTaskRecords fsEmpty "/repo").result
            = .error (.missingOrUnreadableSource p)) ∧
    ∀ rs : List TaskRecord, (buildTaskRecords fsEmpty "/repo").result ≠ .ok rs := by
  have hmiss : ∃ d ∈ baseTasks, fsEmpty (taskPath "/repo" d) = none := by
    refine ⟨baseTasks.get ⟨0, by decide⟩, ?_, rfl⟩
    exact List.get_mem baseTasks 0 (by decide)
  exact ⟨hmiss, (claim3_missing_file_aborts fsEmpty "/repo" hmiss).1,
    (claim3_missing_file_aborts fsEmpty "/repo" hmiss).2⟩

/-- C4: `Home` is deterministic — two invocations on identical record
lists produce identical markup. -/
theorem claim4_render_deterministic (ts ts' : List TaskRecord)
    (h : ts = ts') : Home ts = Home ts' := by rw [h]

/-- C4 witness at the concrete record list `rsW`. -/
theorem claim4_witness : Home rsW = Home rsW :=
  claim4_render_deterministic rsW rsW rfl

/-- C6: the `id` values of the fixed descriptor list are pairwise
distinct. -/
theorem claim6_ids_pairwise_distinct :
    (baseTasks.map TaskBase.id).Pairwise (fun a b => a ≠ b) := by decide

/-- C8: the construction of the task records emits only filesystem read
events — no writes and no network calls — and interpreting its whole
effect trace leaves any filesystem state unchanged. -/
theorem claim8_reads_only_no_mutation (fs : FS) (cwd : String) :
    (∀ e ∈ (buildTaskRecords fs cwd).trace, ∃ p, e = Effect.fsRead p) ∧
    ∀ g : FS, applyEffects (buildTaskRecords fs cwd).trace g = g :=
  ⟨buildOn_trace_reads fs cwd baseTasks,
   fun g => applyEffects_of_reads _ (buildOn_trace_reads fs cwd baseTasks) g⟩

/-- C9: each produced record preserves every descriptor field unchanged;
only the `code` field is added. -/
theorem claim9_descriptor_fields_preserved (fs : FS) (cwd : String)
    (rs : List TaskRecord) (h : (buildTaskRecords fs cwd).result = .ok rs) :
    ∀ i (hi : i < rs.length) (hd : i < baseTasks.length),
      rs.get ⟨i, hi⟩ = (baseTasks.get ⟨i, hd⟩).withCode ((rs.get ⟨i, hi⟩).code) :=
  fun _ hi hd => ((buildOn_ok_forall2 fs cwd baseTasks rs h).get hd hi).2

/-- C9 witness at `fsW`, index 0. -/
theorem claim9_witness :
    (buildTaskRecords fsW "/repo").result = .ok rsW ∧
    rsW.get ⟨0, by decide⟩
      = (baseTasks.get ⟨0, by decide⟩).withCode ((rsW.get ⟨0, by decide⟩).code) :=
  ⟨fsW_ok,
   claim9_descriptor_fields_preserved fsW "/repo" rsW fsW_ok 0
     (by decide) (by decide)⟩

/-- C10: `Home` performs no I/O (its effect trace is empty), so once the
module-level record list is cached, rendering at any later filesystem
state — however the files have changed — yields the same markup. -/
theorem claim10_reads_only_at_init (fs0 : FS) (cwd : String)
    (rs : List TaskRecord) (h : (buildTaskRecords fs0 cwd).result = .ok rs) :
    (HomeM rs).trace = [] ∧
    ∀ fs1 fs2 : FS, renderAt rs fs1 = renderAt rs fs2 :=
  ⟨rfl, fun _ _ => rfl⟩

/-- C10 witness: records built from `fsW`; later renders against the
unchanged and the emptied filesystem agree. -/
theorem claim10_witness :
    (buildTaskRecords fsW "/repo").result = .ok rsW ∧
    (HomeM rsW).trace = [] ∧
    renderAt rsW fsW = renderAt rsW fsEmpty :=
  ⟨fsW_ok, (claim10_reads_only_at_init fsW "/repo" rsW fsW_ok).1,
   (claim10_reads_only_at_init fsW "/repo" rsW fsW_ok).2 fsW fsEmpty⟩

/-- Highlight list items carry no `className`, so a class search never
selects them. -/
theorem findClassList_highlight_items (c : String) :
    ∀ hs : List String,
      findClassList c (hs.map fun h => Node.elem "li" [("key", h)] [.text h]) = []
  | [] => rfl
  | h :: hs => by
      simp only [List.map, findClassList, findClass, classOf, List.lookup]
      simp [findClassList_highlight_items c hs]

/-- A card's only element with class `taskCard` is the card itself. -/
theorem findClass_taskCard_card (t : TaskRecord) :
    findClass "taskCard" (renderTaskCard t) = [renderTaskCard t] := by
  simp only [renderTaskCard, findClass, findClassList, classOf, List.lookup,
    findClassList_highlight_items]
  simp [renderTaskCard]

/-- Searching the mapped card list for class `taskCard` returns exactly
the cards, in order. -/
theorem findClassList_cards (ts : List TaskRecord) :
    findClassList "taskCard" (ts.map renderTaskCard) = ts.map renderTaskCard := by
  induction ts with
  | nil => rfl
  | cons t ts ih =>
      simp only [List.map, findClassList, findClass_taskCard_card, ih]
      rfl

/-- The task cards of the whole page are exactly the rendered records,
in order. -/
theorem findClass_taskCard_Home (ts : List TaskRecord) :
    findClass "taskCard" (Home ts) = ts.map renderTaskCard := by
  simp only [Home, findClass, findClassList, classOf, List.lookup,
    findClassList_cards]
  simp

/-- A card's only element with class `highlightList` is its highlight
list, whose children are the highlight items in order, each keyed by
its own text. -/
theorem findClass_highlightList_card (t : TaskRecord) :
    findClass "highlightList" (renderTaskCard t)
      = [Node.elem "ul" [("className", "highlightList")]
          (t.highlights.map fun h => Node.elem "li" [("key", h)] [.text h])] := by
  simp only [renderTaskCard, findClass, findClassList, classOf, List.lookup,
    findClassList_highlight_items]
  simp

/-- C7: in the rendered output the task cards are exactly the rendered
records in order, and each card's highlights appear as the children of
its single `highlightList` element: the highlight strings in exactly
their given order, each item keyed by its own text and containing that
text. -/
theorem claim7_highlights_in_order_keyed_by_text (ts : List TaskRecord) :
    findClass "taskCard" (Home ts) = ts.map renderTaskCard ∧
    ∀ t : TaskRecord,
      findClass "highlightList" (renderTaskCard t)
        = [Node.elem "ul" [("className", "highlightList")]
            (t.highlights.map fun h => Node.elem "li" [("key", h)] [.text h])] :=
  ⟨findClass_taskCard_Home ts, findClass_highlightList_card⟩

/-- Collapsed-details search never selects a highlight item. -/
theorem detailsList_highlight_items (s : String) :
    ∀ hs : List String,
      collapsedDetailsWithTextList s
        (hs.map fun h => Node.elem "li" [("key", h)] [.text h]) = false
  | [] => rfl
  | h :: hs => by
      simp only [List.map, collapsedDetailsWithTextList, collapsedDetailsWithText]
      simp [detailsList_highlight_items s hs]

/-- Every card contains its record's full source text inside a
`<details>` element that is collapsed by default. -/
theorem card_contains_code (t : TaskRecord) :
    collapsedDetailsWithText t.code (renderTaskCard t) = true := by
  simp only [renderTaskCard, collapsedDetailsWithText,
    collapsedDetailsWithTextList, containsText, containsTextList,
    detailsList_highlight_items]
  simp

/-- The filesystem of the end-to-end scenario: the two descriptor files
present with contents `s1` and `s2`, nothing else. -/
def fs2files (s1 s2 : String) : FS := fun p =>
  if p = "/repo/php/task1_largest.php" then some s1
  else if p = "/repo/php/task2_reverse.php" then some s2
  else none

/-- The two task records of the end-to-end scenario, with source texts
`s1` and `s2`. -/
def scenarioRecords (s1 s2 : String) : List TaskRecord :=
  [ { id := "task-1"
    , title := "Task 1 · Largest Number Using Nested If"
    , aim := "Determine the largest of three numbers with nested if statements."
    , highlights :=
        [ "Demonstrates conditional control flow without helper utilities."
        , "Prints the evaluated numbers and the detected maximum."
        , "Relies strictly on nested branching for the decision path." ]
    , program := "task1_largest.php"
    , code := s1 }
  , { id := "task-2"
    , title := "Task 2 · Reverse String with strrev()"
    , aim := "Reverse a string using PHP's strrev() function."
    , highlights :=
        [ "Uses PHP's built-in string helper directly."
        , "Displays both original and reversed strings for validation."
        , "Keeps the input deterministic for the documented screenshot." ]
    , program := "task2_reverse.php"
    , code := s2 } ]

/-- C5: with the two documented descriptors pointing at two readable
files of contents `s1` and `s2`, the build succeeds and the rendered
document has exactly two task cards, titled exactly as in the
descriptors, each containing its file's full verbatim text inside a
collapsed-by-default disclosure element, and a header with exactly two
links both referencing the report artifact path. -/
theorem claim5_end_to_end_two_cards (s1 s2 : String) :
    ∃ (rs : List TaskRecord) (c1 c2 hdr : Node),
      (buildTaskRecords (fs2files s1 s2) "/repo").result = .ok rs ∧
      findClass "taskCard" (Home rs) = [c1, c2] ∧
      cardTitle c1 = some "Task 1 · Largest Number Using Nested If" ∧
      cardTitle c2 = some "Task 2 · Reverse String with strrev()" ∧
      collapsedDetailsWithText s1 c1 = true ∧
      collapsedDetailsWithText s2 c2 = true ∧
      findClass "header" (Home rs) = [hdr] ∧
      links hdr = [some "/task-report.pdf", some "/task-report.pdf"] := by
  refine ⟨scenarioRecords s1 s2,
    renderTaskCard ((scenarioRecords s1 s2).get ⟨0, by simp [scenarioRecords]⟩),
    renderTaskCard ((scenarioRecords s1 s2).get ⟨1, by simp [scenarioRecords]⟩),
    _, rfl, rfl, rfl, rfl, ?_, ?_, rfl, rfl⟩
  · exact card_contains_code ((scenarioRecords s1 s2).get ⟨0, by simp [scenarioRecords]⟩)
  · exact card_contains_code ((scenarioRecords s1 s2).get ⟨1, by simp [scenarioRecords]⟩)

/-- C7 witness at the concrete record list `rsW`. -/
theorem claim7_witness :
    findClass "taskCard" (Home rsW) = rsW.map renderTaskCard :=
  (claim7_highlights_in_order_keyed_by_text rsW).1

/-- C8 witness: interpreting the concrete build's trace on the empty
filesystem changes nothing. -/
theorem claim8_witness :
    applyEffects (buildTaskRecords fsW "/repo").trace fsEmpty = fsEmpty :=
  (claim8_reads_only_no_mutation fsW "/repo").2 fsEmpty
